import Mathlib

/-!
# bat-notify: a verification development of `main.go`

The program polls three sysfs files of the battery once per second, stores a
charging state and an energy percentage, and sends desktop notifications.

The embedding is shallow:

* the `battery` struct is a Lean structure and every method is a function
  from the old struct (and what the method reads from the outside world) to
  the new struct and the list of observable events it produced;
* the outside world is passed in explicitly: the contents of the files read
  by `os.ReadFile`, the readings of the clock taken by `time.Since` and
  `time.Now`, and the reply of `notifier.SendNotification`;
* a Go `panic` is the `Except.error` branch of `Except String _`;
* floating-point numbers are modelled by value (`FloatVal`), arithmetic is
  exact rational arithmetic followed by IEEE 754 round-to-nearest-even.
-/

namespace BatNotify

/-! ## Floating-point values -/

/-- The value of a Go floating-point variable: not-a-number, an infinity, or
a finite number. Finite numbers are kept as rationals: every finite float is
`fin q` for one rational `q` (not every `fin q` is a float, so a statement
about all `fin q` covers all finite floats). Both zeros are the rational `0`
(this program only ever produces `+0`). -/
inductive FloatVal where
  | nan
  | posInf
  | negInf
  | fin (q : ℚ)
  deriving DecidableEq

namespace FloatVal

/-- Go's `x < y` on floating-point operands (false whenever an operand is NaN). -/
def lt : FloatVal → FloatVal → Bool
  | fin a, fin b => decide (a < b)
  | fin _, posInf => true
  | negInf, fin _ => true
  | negInf, posInf => true
  | _, _ => false

/-- Go's `x > y` on floating-point operands. -/
def gt (x y : FloatVal) : Bool := lt y x

/-- Go's `x <= y` on floating-point operands (false whenever an operand is NaN). -/
def le : FloatVal → FloatVal → Bool
  | fin a, fin b => decide (a ≤ b)
  | fin _, posInf => true
  | negInf, fin _ => true
  | negInf, posInf => true
  | posInf, posInf => true
  | negInf, negInf => true
  | _, _ => false

end FloatVal

/-- Round to the nearest integer, ties to the even one. -/
def roundHalfEven (q : ℚ) : ℤ :=
  let f := ⌊q⌋
  if q - f < 1 / 2 then f
  else if 1 / 2 < q - f then f + 1
  else if f % 2 = 0 then f else f + 1

/-- A binary floating-point format: `prec` significand bits (the hidden bit
included), exponents of normal numbers from `emin` to `emax`. -/
structure FloatFormat where
  prec : ℕ
  emin : ℤ
  emax : ℤ

/-- IEEE 754 binary32, Go's `float32`. -/
def binary32 : FloatFormat := ⟨24, -126, 127⟩

/-- IEEE 754 binary64, Go's `float64`. -/
def binary64 : FloatFormat := ⟨53, -1022, 1023⟩

/-- Round a rational to the format, to nearest, ties to even: the rounding
every Go floating-point conversion and operation applies. Below `2 ^ emin`
the spacing is that of the subnormal numbers; a result of magnitude
`2 ^ (emax + 1)` or more is an infinity. -/
def roundTo (f : FloatFormat) (q : ℚ) : FloatVal :=
  if q = 0 then FloatVal.fin 0
  else
    let e : ℤ := max (Int.log 2 |q|) f.emin
    let ulp : ℚ := 2 ^ (e - ((f.prec : ℤ) - 1))
    let r : ℚ := (roundHalfEven (|q| / ulp) : ℚ) * ulp
    if (2 : ℚ) ^ (f.emax + 1) ≤ r then
      (if q < 0 then FloatVal.negInf else FloatVal.posInf)
    else FloatVal.fin (if q < 0 then -r else r)

/-- The conversion `float32(n)` of an unsigned integer. -/
def float32OfUint (n : ℕ) : FloatVal := roundTo binary32 (n : ℚ)

/-- The conversion `float64(x)` of a `float32` value: every binary32 value is
a binary64 value, the conversion is exact. -/
def float64OfFloat32 (x : FloatVal) : FloatVal := x

/-- The quotient `x / y` of two floats of format `f`. Division by zero does
not trap in Go: it gives an infinity, or NaN for `0 / 0`. -/
def fdiv (f : FloatFormat) : FloatVal → FloatVal → FloatVal
  | FloatVal.nan, _ => FloatVal.nan
  | _, FloatVal.nan => FloatVal.nan
  | FloatVal.fin a, FloatVal.fin b =>
      if b = 0 then
        (if a = 0 then FloatVal.nan
         else if 0 < a then FloatVal.posInf else FloatVal.negInf)
      else roundTo f (a / b)
  | FloatVal.fin _, _ => FloatVal.fin 0
  | FloatVal.posInf, FloatVal.fin b =>
      if b < 0 then FloatVal.negInf else FloatVal.posInf
  | FloatVal.negInf, FloatVal.fin b =>
      if b < 0 then FloatVal.posInf else FloatVal.negInf
  | _, _ => FloatVal.nan

/-- The product `x * y` of two floats of format `f`. -/
def fmul (f : FloatFormat) : FloatVal → FloatVal → FloatVal
  | FloatVal.nan, _ => FloatVal.nan
  | _, FloatVal.nan => FloatVal.nan
  | FloatVal.fin a, FloatVal.fin b => roundTo f (a * b)
  | FloatVal.fin a, FloatVal.posInf =>
      if a = 0 then FloatVal.nan
      else if 0 < a then FloatVal.posInf else FloatVal.negInf
  | FloatVal.fin a, FloatVal.negInf =>
      if a = 0 then FloatVal.nan
      else if 0 < a then FloatVal.negInf else FloatVal.posInf
  | FloatVal.posInf, FloatVal.fin b =>
      if b = 0 then FloatVal.nan
      else if 0 < b then FloatVal.posInf else FloatVal.negInf
  | FloatVal.negInf, FloatVal.fin b =>
      if b = 0 then FloatVal.nan
      else if 0 < b then FloatVal.negInf else FloatVal.posInf
  | FloatVal.posInf, FloatVal.posInf => FloatVal.posInf
  | FloatVal.negInf, FloatVal.negInf => FloatVal.posInf
  | FloatVal.posInf, FloatVal.negInf => FloatVal.negInf
  | FloatVal.negInf, FloatVal.posInf => FloatVal.negInf

/-- Go's `math.Floor`: `Floor(±Inf) = ±Inf`, `Floor(NaN) = NaN`, and the
greatest integer below a finite argument. -/
def Floor : FloatVal → FloatVal
  | FloatVal.fin q => FloatVal.fin (⌊q⌋ : ℤ)
  | x => x

/-! ## Strings -/

/-- Go's `strings.Trim(s, cutset)`: `s` without the leading and trailing
code points contained in `cutset`. -/
def Trim (s cutset : String) : String :=
  ⟨((s.data.dropWhile (fun c => cutset.data.contains c)).reverse.dropWhile
      (fun c => cutset.data.contains c)).reverse⟩

/-- The digit loop of `strconv.ParseUint` for base 10: `n` is the value read
so far. A character that is not a decimal digit is a syntax error, a value
above `maxVal` a range error; both are `none`. -/
def parseDigits (maxVal : ℕ) : List Char → ℕ → Option ℕ
  | [], n => some n
  | c :: cs, n =>
      if c.isDigit then
        let n1 := n * 10 + (c.toNat - 48)
        if maxVal < n1 then none else parseDigits maxVal cs n1
      else none

/-- Go's `strconv.ParseUint(s, 10, bitSize)`; `none` stands for a returned
error (the empty string is a syntax error). -/
def ParseUint (s : String) (bitSize : ℕ) : Option ℕ :=
  if s.data = [] then none else parseDigits (2 ^ bitSize - 1) s.data 0

/-! ## Time -/

/-- Go's `time.Duration`: a number of nanoseconds, a signed 64-bit integer. -/
abbrev Duration := ℤ

/-- One second, `time.Second`. -/
def Second : Duration := 1000000000

/-- The largest `time.Duration`. -/
def maxDuration : Duration := 2 ^ 63 - 1

/-- The smallest `time.Duration`. -/
def minDuration : Duration := -(2 ^ 63)

/-- Go's `time.Time`: a wall-clock reading in nanoseconds since January 1 of
year 1, 00:00:00 UTC, and, on values that come from `time.Now`, a reading of
the monotonic clock. -/
structure Time where
  wall : ℤ
  mono : Option ℤ
  deriving DecidableEq

/-- The zero value `time.Time{}`: January 1 of year 1, no monotonic reading. -/
def zeroTime : Time := ⟨0, none⟩

/-- One reading of the system clocks: wall clock and monotonic clock. -/
structure Clock where
  wall : ℤ
  mono : ℤ
  deriving DecidableEq

/-- The value `time.Now()` returns when the clocks read `c`. -/
def Now (c : Clock) : Time := ⟨c.wall, some c.mono⟩

/-- A difference of two clock readings as a `time.Duration`: `Time.Sub` and
`time.Since` saturate at `minDuration` and `maxDuration`. -/
def satDuration (d : ℤ) : Duration :=
  if d < minDuration then minDuration
  else if maxDuration < d then maxDuration
  else d

/-- Go's `time.Since(t)` when the clocks read `c`: the difference of the
monotonic readings when `t` has one, of the wall-clock readings otherwise. -/
def Since (c : Clock) (t : Time) : Duration :=
  match t.mono with
  | some m => satDuration (c.mono - m)
  | none => satDuration (c.wall - t.wall)

/-! ## Notifications -/

/-- The urgency levels of the notification library. -/
inductive Urgency where
  | UrgencyLow
  | UrgencyNormal
  | UrgencyCritical
  deriving DecidableEq

export Urgency (UrgencyLow UrgencyNormal UrgencyCritical)

/-- A hint of a notification: a key and its value. -/
structure Hint where
  ID : String
  value : Urgency
  deriving DecidableEq

/-- Modelled from the spec: the notification request of the library
`github.com/esiqveland/notify`, which is not part of this repository. The
fields are those the program sets; `urgency` is the structured urgency field
(unset on a fresh request) and `Hints` the list of hints added so far. -/
structure Notification where
  AppName : String
  ReplacesID : ℕ
  Summary : String
  Body : String
  ExpireTimeout : Duration
  urgency : Option Urgency
  Hints : List Hint
  deriving DecidableEq

/-- Modelled from the spec: `n.SetUrgency(u)` of the notification library,
setting the structured urgency field. -/
def SetUrgency (n : Notification) (u : Urgency) : Notification :=
  { n with urgency := some u }

/-- Modelled from the spec: `notify.HintUrgency(u)` of the notification
library, the hint that carries an urgency. -/
def HintUrgency (u : Urgency) : Hint := ⟨"urgency", u⟩

/-- Modelled from the spec: `n.AddHint(h)` of the notification library. -/
def AddHint (n : Notification) (h : Hint) : Notification :=
  { n with Hints := n.Hints ++ [h] }

/-- What a method does to the outside world, in order. -/
inductive Event where
  | send (n : Notification)
  | logged (line : String)
  deriving DecidableEq

/-- The reply of `notifier.SendNotification`: the identifier of the
notification, or an error (its text). -/
abbrev SendReply := Except String ℕ

/-- The notifications handed to `SendNotification` among the events. -/
def sentNotifications : List Event → List Notification
  | [] => []
  | Event.send n :: evs => n :: sentNotifications evs
  | Event.logged _ :: evs => sentNotifications evs

/-- The lines written to the log among the events. -/
def logLines : List Event → List String
  | [] => []
  | Event.send _ :: evs => logLines evs
  | Event.logged l :: evs => l :: logLines evs

/-! ## The battery monitor -/

/-- The threshold at which we should start alerting about charging. -/
def CriticalEnergyLevel : ℕ := 24

/-- Go's `type chargingState = int`. -/
abbrev chargingState := ℤ

/-- The constant `Unknown` (`iota + 1` with `iota = 0`). -/
abbrev Unknown : chargingState := 1
/-- The constant `Charging`. -/
abbrev Charging : chargingState := 2
/-- The constant `Discharging`. -/
abbrev Discharging : chargingState := 3
/-- The constant `NotCharging`. -/
abbrev NotCharging : chargingState := 4
/-- The constant `Full`. -/
abbrev Full : chargingState := 5

/-- The struct `battery`. The field `notifier` is the handle of the
notification connection; it never changes, and the replies of its
`SendNotification` are arguments of the methods that call it. -/
structure battery where
  chargeState : chargingState
  energyLevel : FloatVal
  lastMsg : Time
  deriving DecidableEq

/-- The struct `newBatStat` returns once the notification connection is set
up: `energyLevel: 99.99, chargeState: NotCharging`, and the zero `lastMsg`. -/
def newBatStat : battery :=
  { chargeState := NotCharging
    energyLevel := roundTo binary64 (9999 / 100)
    lastMsg := zeroTime }

/-- The method `sendChargingMsg`: one call of `SendNotification`, and a log
line when it returns an error. The receiver is passed by value and not
changed. -/
def sendChargingMsg (_bat : battery) (reply : SendReply) : List Event :=
  let n : Notification :=
    { AppName := "Battery-Notify"
      ReplacesID := 0
      Summary := "Battery Status"
      Body := "Charging"
      ExpireTimeout := Second * 5
      urgency := none
      Hints := [] }
  match reply with
  | Except.error err => [Event.send n, Event.logged ("error sending notification: " ++ err)]
  | Except.ok _ => [Event.send n]

/-- The method `writeChargingState`. `file` is what `os.ReadFile` returns
for the status file (`none` for an error), `reply` what `SendNotification`
returns if it is called. -/
def writeChargingState (bat : battery) (file : Option String) (reply : SendReply) :
    Except String (battery × List Event) :=
  match file with
  | none => Except.error "bat: unable to read BAT0 status"
  | some status =>
      if Trim status "\n" = "Charging" then
        let evs := if bat.chargeState ≠ Charging then sendChargingMsg bat reply else []
        Except.ok ({ bat with chargeState := Charging }, evs)
      else
        Except.ok ({ bat with chargeState := Discharging }, [])

/-- The method `writeBatPercentage`. `ef` and `en` are what `os.ReadFile`
returns for the files `energy_full` and `energy_now`. -/
def writeBatPercentage (bat : battery) (ef en : Option String) : Except String battery :=
  match ef with
  | none => Except.error "bat: unable to read BAT0 status"
  | some ef =>
    match en with
    | none => Except.error "bat: unable to read BAT0 status"
    | some en =>
      match ParseUint (Trim ef "\n") 32 with
      | none => Except.error "bat: unable to parse energy_full"
      | some energy_full =>
        match ParseUint (Trim en "\n") 32 with
        | none => Except.error "bat: unable to parse energy_now"
        | some energy_now =>
          Except.ok { bat with
            energyLevel :=
              Floor (float64OfFloat32
                (fmul binary32 (FloatVal.fin 100)
                  (fdiv binary32 (float32OfUint energy_now) (float32OfUint energy_full)))) }

/-- The method `sendChargeMsg`. `c` is the reading of the clocks taken by
`time.Since`, `c2` the one taken by `time.Now` after the send, `reply` what
`SendNotification` returns if it is called. -/
def sendChargeMsg (bat : battery) (c c2 : Clock) (reply : SendReply) :
    battery × List Event :=
  if Since c bat.lastMsg ≤ 10 * Second ∨ bat.chargeState = Charging then (bat, [])
  else if FloatVal.gt bat.energyLevel (FloatVal.fin CriticalEnergyLevel) then (bat, [])
  else
    let n : Notification :=
      { AppName := "Battery-Notify"
        ReplacesID := 0
        Summary := "Battery leveling  warning"
        Body := "Please charge your laptop!"
        ExpireTimeout := Second * 5
        urgency := none
        Hints := [] }
    let n := SetUrgency n UrgencyCritical
    let n := AddHint n (HintUrgency UrgencyCritical)
    let bat1 := { bat with lastMsg := Now c2 }
    match reply with
    | Except.error err =>
        (bat1, [Event.send n, Event.logged ("error sending notification: " ++ err)])
    | Except.ok _ => (bat1, [Event.send n])

/-- What one tick of the loop in `main` reads from the outside world: the
three files, the two clock readings of `sendChargeMsg`, and the replies of
the two calls of `SendNotification` it can make. -/
structure TickInput where
  energyFull : Option String
  energyNow : Option String
  status : Option String
  clock : Clock
  clock2 : Clock
  chargingReply : SendReply
  warningReply : SendReply

/-- One tick of the loop in `main`: `writeBatPercentage`, then
`writeChargingState`, then `sendChargeMsg`. A panic ends the tick. -/
def tick (bat : battery) (i : TickInput) : Except String (battery × List Event) :=
  match writeBatPercentage bat i.energyFull i.energyNow with
  | Except.error e => Except.error e
  | Except.ok bat1 =>
    match writeChargingState bat1 i.status i.chargingReply with
    | Except.error e => Except.error e
    | Except.ok (bat2, evs1) =>
      let r := sendChargeMsg bat2 i.clock i.clock2 i.warningReply
      Except.ok (r.1, evs1 ++ r.2)

/-! ## Definitions used to state the properties -/

/-- The low-battery warning request as `sendChargeMsg` completes it (the
summary has two blanks after "leveling"). -/
def lowBatteryWarning : Notification :=
  { AppName := "Battery-Notify"
    ReplacesID := 0
    Summary := "Battery leveling  warning"
    Body := "Please charge your laptop!"
    ExpireTimeout := 5 * Second
    urgency := some UrgencyCritical
    Hints := [⟨"urgency", UrgencyCritical⟩] }

/-- The events of one send of `n`: the call of `SendNotification`, and a log
line when the reply is an error. -/
def sendEvents (n : Notification) : SendReply → List Event
  | Except.error err => [Event.send n, Event.logged ("error sending notification: " ++ err)]
  | Except.ok _ => [Event.send n]

/-- A reading of the clocks in the year 2026: the wall clock some
`6.39 * 10 ^ 19` nanoseconds after year 1, the monotonic clock five seconds
after the start of the process. -/
def clockStart : Clock := ⟨63900000000000000000, 5000000000⟩

/-- The clocks `d` nanoseconds after `clockStart`. -/
def clockAfter (d : ℤ) : Clock := ⟨63900000000000000000 + d, 5000000000 + d⟩

/-- The reading of the spec's classifier input, "a raw status string (trimmed
of surrounding whitespace/newlines)": the string without its leading and
trailing whitespace characters (blank, tab, carriage return, newline). -/
def trimWhitespaceSpec (s : String) : String :=
  ⟨((s.data.dropWhile Char.isWhitespace).reverse.dropWhile Char.isWhitespace).reverse⟩

/-- The number of notifications `writeChargingState` sends at each tick when
the status readings `ticks` (each with the reply `SendNotification` would
give) are fed to it one after the other, starting from `bat`. -/
def chargingRun : battery → List (String × SendReply) → List ℕ
  | _, [] => []
  | bat, (status, reply) :: rest =>
      match writeChargingState bat (some status) reply with
      | Except.ok (bat1, evs) => (sentNotifications evs).length :: chargingRun bat1 rest
      | Except.error _ => []

/-- Whether a status reading is one that `writeChargingState` stores as
`Charging`. -/
def readsCharging (status : String) : Bool := decide (Trim status "\n" = "Charging")

/-- The state stored before tick `i` of a run from `bat`: that of `bat` before
the first tick, afterwards the one the previous reading was stored as. -/
def chargingBefore (bat : battery) (ticks : List (String × SendReply)) : ℕ → Bool
  | 0 => decide (bat.chargeState = Charging)
  | i + 1 =>
      match ticks[i]? with
      | some (status, _) => readsCharging status
      | none => false

/-! ## The low-battery warning rule: lemmas -/

theorem FloatVal.gt_eq_false_iff (x : FloatVal) (b : ℚ) :
    FloatVal.gt x (FloatVal.fin b) = false ↔
      (FloatVal.le x (FloatVal.fin b) = true ∨ x = FloatVal.nan) := by
  cases x <;> simp [FloatVal.gt, FloatVal.lt, FloatVal.le]

theorem sentNotifications_sendEvents (n : Notification) (reply : SendReply) :
    sentNotifications (sendEvents n reply) = [n] := by
  cases reply <;> rfl

theorem sendChargeMsg_quiet (bat : battery) (c c2 : Clock) (reply : SendReply)
    (h : Since c bat.lastMsg ≤ 10 * Second ∨ bat.chargeState = Charging ∨
      FloatVal.gt bat.energyLevel (FloatVal.fin CriticalEnergyLevel) = true) :
    sendChargeMsg bat c c2 reply = (bat, []) := by
  unfold sendChargeMsg
  rcases h with h | h | h
  · rw [if_pos (Or.inl h)]
  · rw [if_pos (Or.inr h)]
  · rw [if_pos h]; simp

theorem sendChargeMsg_fire (bat : battery) (c c2 : Clock) (reply : SendReply)
    (h1 : 10 * Second < Since c bat.lastMsg) (h2 : bat.chargeState ≠ Charging)
    (h3 : FloatVal.gt bat.energyLevel (FloatVal.fin CriticalEnergyLevel) = false) :
    sendChargeMsg bat c c2 reply =
      ({ bat with lastMsg := Now c2 }, sendEvents lowBatteryWarning reply) := by
  unfold sendChargeMsg
  rw [if_neg (by rintro (h | h); exact absurd h (not_le.mpr h1); exact h2 h)]
  rw [if_neg (by simp [h3])]
  cases reply <;> simp [sendEvents, lowBatteryWarning, SetUrgency, AddHint, HintUrgency, mul_comm]

/-- The two ways `sendChargeMsg` can go, with the condition of each. -/
theorem sendChargeMsg_cases (bat : battery) (c c2 : Clock) (reply : SendReply) :
    (sendChargeMsg bat c c2 reply = (bat, []) ∧
      (Since c bat.lastMsg ≤ 10 * Second ∨ bat.chargeState = Charging ∨
        FloatVal.gt bat.energyLevel (FloatVal.fin CriticalEnergyLevel) = true)) ∨
    (sendChargeMsg bat c c2 reply =
        ({ bat with lastMsg := Now c2 }, sendEvents lowBatteryWarning reply) ∧
      10 * Second < Since c bat.lastMsg ∧ bat.chargeState ≠ Charging ∧
        FloatVal.gt bat.energyLevel (FloatVal.fin CriticalEnergyLevel) = false) := by
  by_cases h1 : Since c bat.lastMsg ≤ 10 * Second
  · exact Or.inl ⟨sendChargeMsg_quiet _ _ _ _ (Or.inl h1), Or.inl h1⟩
  by_cases h2 : bat.chargeState = Charging
  · exact Or.inl ⟨sendChargeMsg_quiet _ _ _ _ (Or.inr (Or.inl h2)), Or.inr (Or.inl h2)⟩
  cases h3 : FloatVal.gt bat.energyLevel (FloatVal.fin CriticalEnergyLevel)
  · exact Or.inr ⟨sendChargeMsg_fire _ _ _ _ (not_le.mp h1) h2 h3, not_le.mp h1, h2, rfl⟩
  · exact Or.inl ⟨sendChargeMsg_quiet _ _ _ _ (Or.inr (Or.inr h3)), Or.inr (Or.inr rfl)⟩

/-- With the zero `lastMsg` the elapsed time is the (saturated) wall-clock
reading itself. -/
theorem Since_zeroTime (c : Clock) (h : 10 * Second < c.wall) :
    10 * Second < Since c zeroTime := by
  simp only [Since, zeroTime, satDuration, sub_zero]
  have h1 : (10 : ℤ) * 1000000000 < c.wall := h
  have h0 : ¬ c.wall < minDuration := by
    have : minDuration = -(2 ^ 63 : ℤ) := rfl
    rw [this]; norm_num; omega
  rw [if_neg h0]
  split
  · decide
  · exact h

/-- The cooldown gate of `sendChargeMsg` is passed when more than ten seconds
have elapsed, in particular when no warning was ever sent. -/
theorem cooldown_passed (bat : battery) (c : Clock)
    (h : 10 * Second < Since c bat.lastMsg ∨
      (bat.lastMsg = zeroTime ∧ 10 * Second < c.wall)) :
    10 * Second < Since c bat.lastMsg := by
  rcases h with h | ⟨h0, h⟩
  · exact h
  · rw [h0]; exact Since_zeroTime c h

theorem gt_critical_of_le (x : FloatVal) (h : FloatVal.le x (FloatVal.fin 24) = true) :
    FloatVal.gt x (FloatVal.fin CriticalEnergyLevel) = false := by
  have := (FloatVal.gt_eq_false_iff x 24).mpr (Or.inl h)
  exact_mod_cast this

/-! ## Trimming: lemmas -/

theorem trim_eq_of_decomp {α : Type} (p : α → Bool) (a t b : List α) (ht : t ≠ [])
    (hh : p (t.head ht) = false) (hl : p (t.getLast ht) = false)
    (ha : ∀ x ∈ a, p x = true) (hb : ∀ x ∈ b, p x = true) :
    (((a ++ t ++ b).dropWhile p).reverse.dropWhile p).reverse = t := by
  rw [List.append_assoc, List.dropWhile_append_of_pos ha]
  have h1 : (t ++ b).dropWhile p = t ++ b := by
    cases t with
    | nil => exact absurd rfl ht
    | cons x xs =>
      simp only [List.head_cons] at hh
      simp [List.dropWhile_cons, hh]
  rw [h1, List.reverse_append,
    List.dropWhile_append_of_pos (fun x hx => hb x (List.mem_reverse.mp hx))]
  have h2 : t.reverse.dropWhile p = t.reverse := by
    have hne : t.reverse ≠ [] := by simpa using ht
    have hhd : t.reverse.head hne = t.getLast ht := by simp
    cases hr : t.reverse with
    | nil => exact absurd hr hne
    | cons x xs =>
      have : x = t.getLast ht := by
        rw [← hhd]; simp [hr]
      simp [List.dropWhile_cons, this, hl]
  rw [h2, List.reverse_reverse]

theorem decomp_of_trim_eq {α : Type} (p : α → Bool) (l t : List α)
    (h : ((l.dropWhile p).reverse.dropWhile p).reverse = t) :
    ∃ a b, l = a ++ t ++ b ∧ (∀ x ∈ a, p x = true) ∧ (∀ x ∈ b, p x = true) := by
  refine ⟨l.takeWhile p, ((l.dropWhile p).reverse.takeWhile p).reverse, ?_, ?_, ?_⟩
  · rw [← h, List.append_assoc, ← List.reverse_append, List.takeWhile_append_dropWhile,
      List.reverse_reverse, List.takeWhile_append_dropWhile]
  · intro x hx; exact List.mem_takeWhile_imp hx
  · intro x hx; exact List.mem_takeWhile_imp (List.mem_reverse.mp hx)

theorem all_newline_iff (l : List Char) :
    (∀ x ∈ l, "\n".data.contains x = true) ↔ l = List.replicate l.length '\n' := by
  rw [List.eq_replicate_iff]
  simp only [true_and]
  constructor
  · intro h x hx
    have := h x hx
    simpa using this
  · intro h x hx
    rw [h x hx]; decide

/-- The strings `Trim _ "\n"` maps to `"Charging"`: the word between two runs
of newlines. -/
theorem Trim_eq_Charging_iff (raw : String) :
    Trim raw "\n" = "Charging" ↔
      ∃ i j : ℕ, raw.data = List.replicate i '\n' ++ "Charging".data ++ List.replicate j '\n' := by
  have key : Trim raw "\n" = "Charging" ↔
      ((raw.data.dropWhile (fun c => "\n".data.contains c)).reverse.dropWhile
        (fun c => "\n".data.contains c)).reverse = "Charging".data := by
    unfold Trim
    constructor
    · intro h; exact congrArg String.data h
    · intro h; exact String.ext h
  rw [key]
  constructor
  · intro h
    obtain ⟨a, b, hab, ha, hb⟩ := decomp_of_trim_eq _ _ _ h
    refine ⟨a.length, b.length, ?_⟩
    rw [hab, ← (all_newline_iff a).mp ha, ← (all_newline_iff b).mp hb]
  · rintro ⟨i, j, h⟩
    rw [h]
    refine trim_eq_of_decomp _ _ _ _ (by decide) (by decide) (by decide) ?_ ?_
    · intro x hx; rw [List.eq_of_mem_replicate hx]; decide
    · intro x hx; rw [List.eq_of_mem_replicate hx]; decide

/-! ## The charging-state classifier: lemmas -/

theorem writeChargingState_eq (bat : battery) (raw : String) (reply : SendReply) :
    writeChargingState bat (some raw) reply =
      Except.ok ({ bat with chargeState := if Trim raw "\n" = "Charging" then Charging
                                            else Discharging },
        if Trim raw "\n" = "Charging" ∧ bat.chargeState ≠ Charging
          then sendChargingMsg bat reply else []) := by
  unfold writeChargingState
  by_cases h : Trim raw "\n" = "Charging"
  · by_cases h2 : bat.chargeState = Charging <;> simp [h, h2]
  · simp [h]

theorem sentNotifications_sendChargingMsg_length (bat : battery) (reply : SendReply) :
    (sentNotifications (sendChargingMsg bat reply)).length = 1 := by
  cases reply <;> rfl

theorem chargingRun_cons (bat : battery) (status : String) (reply : SendReply)
    (rest : List (String × SendReply)) :
    chargingRun bat ((status, reply) :: rest) =
      (if readsCharging status = true ∧ bat.chargeState ≠ Charging then 1 else 0) ::
        chargingRun { bat with chargeState := if readsCharging status = true then Charging
                                                else Discharging } rest := by
  rw [chargingRun, writeChargingState_eq]
  by_cases h1 : Trim status "\n" = "Charging" <;> by_cases h2 : bat.chargeState = Charging <;>
    simp [readsCharging, h1, h2, sentNotifications_sendChargingMsg_length, sentNotifications]

/-! ## Replies of the notifier: lemmas -/

theorem writeChargingState_reply (bat : battery) (file : Option String) (r1 r2 : SendReply) :
    (writeChargingState bat file r1).map Prod.fst =
        (writeChargingState bat file r2).map Prod.fst ∧
    (writeChargingState bat file r1).map (fun r => sentNotifications r.2) =
        (writeChargingState bat file r2).map (fun r => sentNotifications r.2) := by
  cases file with
  | none => exact ⟨rfl, rfl⟩
  | some raw =>
    unfold writeChargingState
    by_cases h1 : Trim raw "\n" = "Charging" <;> by_cases h2 : bat.chargeState = Charging <;>
      cases r1 <;> cases r2 <;> simp [h1, h2, Except.map, sendChargingMsg, sentNotifications]

theorem sendChargeMsg_reply (bat : battery) (c c2 : Clock) (r1 r2 : SendReply) :
    (sendChargeMsg bat c c2 r1).1 = (sendChargeMsg bat c c2 r2).1 ∧
    sentNotifications (sendChargeMsg bat c c2 r1).2 =
      sentNotifications (sendChargeMsg bat c c2 r2).2 := by
  rcases sendChargeMsg_cases bat c c2 r1 with ⟨e1, h⟩ | ⟨e1, h1, h2, h3⟩
  · rw [e1, sendChargeMsg_quiet bat c c2 r2 h]; exact ⟨rfl, rfl⟩
  · rw [e1, sendChargeMsg_fire bat c c2 r2 h1 h2 h3, sentNotifications_sendEvents,
      sentNotifications_sendEvents]; exact ⟨rfl, rfl⟩

theorem sentNotifications_append (xs ys : List Event) :
    sentNotifications (xs ++ ys) = sentNotifications xs ++ sentNotifications ys := by
  induction xs with
  | nil => rfl
  | cons x xs ih => cases x <;> simp [sentNotifications, ih]

theorem sentNotifications_sendChargingMsg (bat : battery) (reply : SendReply) :
    sentNotifications (sendChargingMsg bat reply) =
      [⟨"Battery-Notify", 0, "Battery Status", "Charging", 5 * Second, none, []⟩] := by
  cases reply <;> simp [sendChargingMsg, sentNotifications, mul_comm]

/-! ## Rounding: lemmas -/

theorem roundHalfEven_sub_le (q : ℚ) : |(roundHalfEven q : ℚ) - q| ≤ 1 / 2 := by
  have h1 : (⌊q⌋ : ℚ) ≤ q := Int.floor_le q
  have h2 : q < ⌊q⌋ + 1 := Int.lt_floor_add_one q
  unfold roundHalfEven
  simp only
  rw [abs_le]
  split_ifs with a b c
  · constructor <;> linarith
  · push_cast; constructor <;> linarith
  · constructor <;> linarith
  · push_cast; constructor <;> linarith

theorem roundHalfEven_eq (q : ℚ) (m : ℤ) (h : |q - m| < 1 / 2) : roundHalfEven q = m := by
  rw [abs_lt] at h
  have hle := roundHalfEven_sub_le q
  rw [abs_le] at hle
  have h1 : ((roundHalfEven q : ℤ) : ℚ) - m < 1 := by linarith [h.1, h.2, hle.1, hle.2]
  have h2 : (-1 : ℚ) < (roundHalfEven q : ℚ) - m := by linarith [h.1, h.2, hle.1, hle.2]
  have h3 : (roundHalfEven q - m : ℤ) < 1 := by exact_mod_cast h1
  have h4 : (-1 : ℤ) < roundHalfEven q - m := by exact_mod_cast h2
  omega

/-- The exponent `roundTo` works with, for a positive number in a binade
of normal numbers. -/
theorem log_eq_of_binade (q : ℚ) (e : ℤ) (h1 : (2 : ℚ) ^ e ≤ q) (h2 : q < (2 : ℚ) ^ (e + 1)) :
    Int.log 2 q = e := by
  have hq : 0 < q := lt_of_lt_of_le (by positivity) h1
  have a : e ≤ Int.log 2 q := (Int.zpow_le_iff_le_log (by norm_num) hq).mp (by exact_mod_cast h1)
  have b : Int.log 2 q < e + 1 := (Int.lt_zpow_iff_log_lt (by norm_num) hq).mp (by exact_mod_cast h2)
  omega

/-- Evaluation of `roundTo binary32` at a positive number of the binade
`[2 ^ e, 2 ^ (e + 1))` whose scaled value is within one half of the
integer `m`. -/
theorem roundTo_binary32_eq (q : ℚ) (e m : ℤ) (h1 : (2 : ℚ) ^ e ≤ q)
    (h2 : q < (2 : ℚ) ^ (e + 1)) (he : -126 ≤ e)
    (hm : |q / (2 : ℚ) ^ (e - 23) - m| < 1 / 2)
    (hov : (m : ℚ) * (2 : ℚ) ^ (e - 23) < (2 : ℚ) ^ (128 : ℤ)) :
    roundTo binary32 q = FloatVal.fin ((m : ℚ) * (2 : ℚ) ^ (e - 23)) := by
  have hq : 0 < q := lt_of_lt_of_le (by positivity) h1
  unfold roundTo
  rw [if_neg (ne_of_gt hq)]
  have e1 : (((24 : ℕ) : ℤ) - 1) = 23 := by norm_num
  have e2 : ((127 : ℤ) + 1) = 128 := by norm_num
  simp only [binary32, abs_of_pos hq, log_eq_of_binade q e h1 h2, max_eq_left he, e1, e2]
  rw [roundHalfEven_eq _ m hm]
  rw [if_neg (not_le.mpr hov), if_neg (not_lt.mpr (le_of_lt hq))]

/-- The relative error of `roundTo binary32` on a number between `2 ^ (-40)`
and `2 ^ 40`, well inside the range of the normal numbers, is at most
`2 ^ (-24)`. -/
theorem roundTo_binary32_bounds (q : ℚ) (hlo' : 1 / 1099511627776 ≤ q)
    (hhi' : q ≤ 1099511627776) :
    ∃ r : ℚ, roundTo binary32 q = FloatVal.fin r ∧
      q * (1 - 1 / 16777216) ≤ r ∧ r ≤ q * (1 + 1 / 16777216) := by
  have hlo : (2 : ℚ) ^ (-126 : ℤ) ≤ q := le_trans (by norm_num) hlo'
  have hhi : q < (2 : ℚ) ^ (127 : ℤ) := lt_of_le_of_lt hhi' (by norm_num)
  have hq : 0 < q := lt_of_lt_of_le (by positivity) hlo
  have h1 : (2 : ℚ) ^ (Int.log 2 q) ≤ q := by
    exact_mod_cast Int.zpow_log_le_self (b := 2) (by norm_num) hq
  have h2 : q < (2 : ℚ) ^ (Int.log 2 q + 1) := by
    exact_mod_cast Int.lt_zpow_succ_log_self (b := 2) (by norm_num) q
  have he : -126 ≤ Int.log 2 q :=
    (Int.zpow_le_iff_le_log (by norm_num) hq).mp (by exact_mod_cast hlo)
  generalize hE : Int.log 2 q = e at h1 h2 he
  have hu : (0 : ℚ) < (2 : ℚ) ^ (e - 23) := by positivity
  have hr := roundHalfEven_sub_le (q / (2 : ℚ) ^ (e - 23))
  rw [abs_le] at hr
  have hsplit : (2 : ℚ) ^ e = (2 : ℚ) ^ (e - 23) * 8388608 := by
    rw [show e = (e - 23) + 23 by ring, zpow_add₀ (by norm_num : (2 : ℚ) ≠ 0)]
    norm_num
  set u : ℚ := (2 : ℚ) ^ (e - 23) with hudef
  set m : ℤ := roundHalfEven (q / u) with hmdef
  have hqu : q / u * u = q := div_mul_cancel₀ q (ne_of_gt hu)
  have hlow : q - u / 2 ≤ (m : ℚ) * u := by
    have := mul_le_mul_of_nonneg_right hr.1 (le_of_lt hu)
    rw [sub_mul, hqu] at this
    linarith
  have hupp : (m : ℚ) * u ≤ q + u / 2 := by
    have := mul_le_mul_of_nonneg_right hr.2 (le_of_lt hu)
    rw [sub_mul, hqu] at this
    linarith
  have hu_le : u * 8388608 ≤ q := by rw [← hsplit]; exact h1
  refine ⟨(m : ℚ) * u, ?_, by linarith, by linarith⟩
  have hov : ¬ ((2 : ℚ) ^ (128 : ℤ) ≤ (m : ℚ) * u) := by
    have h128 : (2 : ℚ) ^ (128 : ℤ) = (2 : ℚ) ^ (127 : ℤ) * 2 := by norm_num
    rw [h128]
    intro hc
    linarith
  have e1 : (((24 : ℕ) : ℤ) - 1) = 23 := by norm_num
  have e2 : ((127 : ℤ) + 1) = 128 := by norm_num
  unfold roundTo
  rw [if_neg (ne_of_gt hq)]
  simp only [binary32, abs_of_pos hq, hE, max_eq_left he, e1, e2]
  rw [if_neg hov, if_neg (not_lt.mpr (le_of_lt hq))]


/-- Evaluation of `roundTo binary32`, the result named. -/
theorem roundTo_binary32_val (q r : ℚ) (e m : ℤ) (h1 : (2 : ℚ) ^ e ≤ q)
    (h2 : q < (2 : ℚ) ^ (e + 1)) (he : -126 ≤ e)
    (hm : |q / (2 : ℚ) ^ (e - 23) - m| < 1 / 2)
    (hr : (m : ℚ) * (2 : ℚ) ^ (e - 23) = r)
    (hov : r < (2 : ℚ) ^ (128 : ℤ)) :
    roundTo binary32 q = FloatVal.fin r := by
  rw [← hr] at hov ⊢
  exact roundTo_binary32_eq q e m h1 h2 he hm hov

/-! ## The percentage: lemmas -/

theorem parseDigits_le (maxVal : ℕ) (cs : List Char) (n0 n : ℕ) (h0 : n0 ≤ maxVal)
    (h : parseDigits maxVal cs n0 = some n) : n ≤ maxVal := by
  induction cs generalizing n0 with
  | nil =>
    simp only [parseDigits, Option.some.injEq] at h
    omega
  | cons c cs ih =>
    simp only [parseDigits] at h
    split at h
    · split at h
      · exact absurd h (by simp)
      · exact ih _ (by omega) h
    · exact absurd h (by simp)

/-- A value `ParseUint` returns for `bitSize` 32 fits in 32 bits. -/
theorem ParseUint_lt (s : String) (n : ℕ) (h : ParseUint s 32 = some n) : n < 2 ^ 32 := by
  unfold ParseUint at h
  split at h
  · exact absurd h (by simp)
  · have := parseDigits_le _ _ _ _ (Nat.zero_le _) h
    omega

/-- The method `writeBatPercentage` once both files are read and parsed. -/
theorem writeBatPercentage_eq (bat : battery) (ef en : String) (energy_full energy_now : ℕ)
    (hf : ParseUint (Trim ef "\n") 32 = some energy_full)
    (hn : ParseUint (Trim en "\n") 32 = some energy_now) :
    writeBatPercentage bat (some ef) (some en) =
      Except.ok { bat with
        energyLevel :=
          Floor (float64OfFloat32
            (fmul binary32 (FloatVal.fin 100)
              (fdiv binary32 (float32OfUint energy_now) (float32OfUint energy_full)))) } := by
  simp only [writeBatPercentage, hf, hn]

theorem float32OfUint_zero : float32OfUint 0 = FloatVal.fin 0 := by
  simp [float32OfUint, roundTo]

theorem float32OfUint_bounds (n : ℕ) (h1 : 1 ≤ n) (h2 : n < 2 ^ 32) :
    ∃ r : ℚ, float32OfUint n = FloatVal.fin r ∧
      (n : ℚ) * (1 - 1 / 16777216) ≤ r ∧ r ≤ (n : ℚ) * (1 + 1 / 16777216) := by
  have h1' : (1 : ℚ) ≤ n := by exact_mod_cast h1
  have h2' : (n : ℚ) < 4294967296 := by exact_mod_cast h2
  apply roundTo_binary32_bounds
  · linarith
  · linarith

/-- The float computation of `writeBatPercentage` from its intermediate
results. -/
theorem percent_eval (n d : ℕ) (A B Q P : ℚ) (hA : float32OfUint n = FloatVal.fin A)
    (hB : float32OfUint d = FloatVal.fin B) (hB0 : B ≠ 0)
    (hQ : roundTo binary32 (A / B) = FloatVal.fin Q)
    (hP : roundTo binary32 (100 * Q) = FloatVal.fin P) :
    Floor (float64OfFloat32 (fmul binary32 (FloatVal.fin 100)
      (fdiv binary32 (float32OfUint n) (float32OfUint d)))) = FloatVal.fin (⌊P⌋ : ℤ) := by
  rw [hA, hB]
  simp only [fdiv, if_neg hB0, hQ, fmul, hP, float64OfFloat32, Floor]

/-- The float computation of `writeBatPercentage` stays within `10 ^ (-4)` of
the exact quotient. -/
theorem percent_bounds (n d : ℕ) (hd : 0 < d) (hnd : n ≤ d) (hd32 : d < 2 ^ 32) :
    ∃ P : ℚ, Floor (float64OfFloat32 (fmul binary32 (FloatVal.fin 100)
        (fdiv binary32 (float32OfUint n) (float32OfUint d)))) = FloatVal.fin (⌊P⌋ : ℤ) ∧
      0 ≤ P ∧ 100 * (n : ℚ) / d - 1 / 10000 ≤ P ∧ P ≤ 100 * (n : ℚ) / d + 1 / 10000 := by
  have hdq : (0 : ℚ) < d := by exact_mod_cast hd
  have hd32q : (d : ℚ) < 4294967296 := by exact_mod_cast hd32
  have hndq : (n : ℚ) ≤ d := by exact_mod_cast hnd
  obtain ⟨B, hB, hB1, hB2⟩ := float32OfUint_bounds d hd hd32
  have hBpos : 0 < B := by
    have : (0 : ℚ) < (d : ℚ) * (1 - 1 / 16777216) := by
      apply mul_pos hdq; norm_num
    linarith
  rcases Nat.eq_zero_or_pos n with hn0 | hnpos
  · subst hn0
    refine ⟨0, ?_, le_refl _, by norm_num, by norm_num⟩
    rw [float32OfUint_zero, hB]
    simp [fdiv, ne_of_gt hBpos, roundTo, fmul, float64OfFloat32, Floor]
  · obtain ⟨A, hA, hA1, hA2⟩ := float32OfUint_bounds n hnpos (lt_of_le_of_lt hnd hd32)
    have hnq : (1 : ℚ) ≤ n := by exact_mod_cast hnpos
    set x : ℚ := (n : ℚ) / d with hx
    have hxpos : 0 < x := div_pos (by linarith) hdq
    have hx1 : x ≤ 1 := (div_le_one hdq).mpr hndq
    have hxd : x * d = n := div_mul_cancel₀ _ (ne_of_gt hdq)
    have hxlo : 1 / 4294967296 ≤ x := by
      rw [hx, le_div_iff₀ hdq]; linarith
    -- the quotient of the two conversions
    have hq_hi : A / B ≤ x * (16777217 / 16777215) := by
      rw [div_le_iff₀ hBpos]
      have : x * (16777217 / 16777215) * ((d : ℚ) * (1 - 1 / 16777216)) ≤
          x * (16777217 / 16777215) * B :=
        mul_le_mul_of_nonneg_left hB1 (by positivity)
      have e : x * (16777217 / 16777215) * ((d : ℚ) * (1 - 1 / 16777216)) =
          (x * d) * (1 + 1 / 16777216) := by ring
      rw [e, hxd] at this
      linarith
    have hq_lo : x * (16777215 / 16777217) ≤ A / B := by
      rw [le_div_iff₀ hBpos]
      have : x * (16777215 / 16777217) * B ≤
          x * (16777215 / 16777217) * ((d : ℚ) * (1 + 1 / 16777216)) :=
        mul_le_mul_of_nonneg_left hB2 (by positivity)
      have e : x * (16777215 / 16777217) * ((d : ℚ) * (1 + 1 / 16777216)) =
          (x * d) * (1 - 1 / 16777216) := by ring
      rw [e, hxd] at this
      linarith
    obtain ⟨Q, hQ, hQ1, hQ2⟩ := roundTo_binary32_bounds (A / B) (by linarith) (by linarith)
    have hQ_lo : x * (16777215 / 16777217) * (1 - 1 / 16777216) ≤ Q :=
      le_trans (mul_le_mul_of_nonneg_right hq_lo (by norm_num)) hQ1
    have hQ_hi : Q ≤ x * (16777217 / 16777215) * (1 + 1 / 16777216) :=
      le_trans hQ2 (mul_le_mul_of_nonneg_right hq_hi (by norm_num))
    obtain ⟨P, hP, hP1, hP2⟩ := roundTo_binary32_bounds (100 * Q) (by linarith) (by linarith)
    have e : 100 * (n : ℚ) / d = 100 * x := by rw [hx]; ring
    rw [e]
    refine ⟨P, percent_eval n d A B Q P hA hB (ne_of_gt hBpos) hQ hP, ?_, ?_, ?_⟩ <;> linarith

/-- The float computation of `writeBatPercentage` at 5000 of 50000. -/
theorem percent_5000_50000 :
    Floor (float64OfFloat32 (fmul binary32 (FloatVal.fin 100)
      (fdiv binary32 (float32OfUint 5000) (float32OfUint 50000)))) = FloatVal.fin 10 := by
  have hA : float32OfUint 5000 = FloatVal.fin 5000 :=
    roundTo_binary32_val _ _ 12 10240000 (by norm_num) (by norm_num) (by norm_num)
      (by rw [abs_lt]; norm_num) (by norm_num) (by norm_num)
  have hB : float32OfUint 50000 = FloatVal.fin 50000 :=
    roundTo_binary32_val _ _ 15 12800000 (by norm_num) (by norm_num) (by norm_num)
      (by rw [abs_lt]; norm_num) (by norm_num) (by norm_num)
  have hQ : roundTo binary32 (5000 / 50000) = FloatVal.fin (13421773 / 134217728) :=
    roundTo_binary32_val _ _ (-4) 13421773 (by norm_num) (by norm_num) (by norm_num)
      (by rw [abs_lt]; norm_num) (by norm_num) (by norm_num)
  have hP : roundTo binary32 (100 * (13421773 / 134217728)) = FloatVal.fin 10 :=
    roundTo_binary32_val _ _ 3 10485760 (by norm_num) (by norm_num) (by norm_num)
      (by rw [abs_lt]; norm_num) (by norm_num) (by norm_num)
  rw [percent_eval 5000 50000 _ _ _ _ hA hB (by norm_num) hQ hP]
  norm_num

/-- The float computation of `writeBatPercentage` at 53 of 100. -/
theorem percent_53_100 :
    Floor (float64OfFloat32 (fmul binary32 (FloatVal.fin 100)
      (fdiv binary32 (float32OfUint 53) (float32OfUint 100)))) = FloatVal.fin 52 := by
  have hA : float32OfUint 53 = FloatVal.fin 53 :=
    roundTo_binary32_val _ _ 5 13893632 (by norm_num) (by norm_num) (by norm_num)
      (by rw [abs_lt]; norm_num) (by norm_num) (by norm_num)
  have hB : float32OfUint 100 = FloatVal.fin 100 :=
    roundTo_binary32_val _ _ 6 13107200 (by norm_num) (by norm_num) (by norm_num)
      (by rw [abs_lt]; norm_num) (by norm_num) (by norm_num)
  have hQ : roundTo binary32 (53 / 100) = FloatVal.fin (2222981 / 4194304) :=
    roundTo_binary32_val _ _ (-1) 8891924 (by norm_num) (by norm_num) (by norm_num)
      (by rw [abs_lt]; norm_num) (by norm_num) (by norm_num)
  have hP : roundTo binary32 (100 * (2222981 / 4194304)) = FloatVal.fin (13893631 / 262144) :=
    roundTo_binary32_val _ _ 5 13893631 (by norm_num) (by norm_num) (by norm_num)
      (by rw [abs_lt]; norm_num) (by norm_num) (by norm_num)
  rw [percent_eval 53 100 _ _ _ _ hA hB (by norm_num) hQ hP]
  have : ⌊(13893631 / 262144 : ℚ)⌋ = 52 := by
    rw [Int.floor_eq_iff]; constructor <;> norm_num
  rw [this]; norm_num

theorem float32OfUint_pos (n : ℕ) (h1 : 1 ≤ n) (h2 : n < 2 ^ 32) :
    ∃ r : ℚ, float32OfUint n = FloatVal.fin r ∧ 0 < r := by
  obtain ⟨r, hr, hlo, _⟩ := float32OfUint_bounds n h1 h2
  refine ⟨r, hr, ?_⟩
  have h1' : (1 : ℚ) ≤ n := by exact_mod_cast h1
  have : (0 : ℚ) < (n : ℚ) * (1 - 1 / 16777216) := by
    apply mul_pos (by linarith); norm_num
  linarith

/-- The float computation of `writeBatPercentage` when `energy_full` is 0. -/
theorem percent_div_zero (n : ℕ) (h2 : n < 2 ^ 32) :
    Floor (float64OfFloat32 (fmul binary32 (FloatVal.fin 100)
      (fdiv binary32 (float32OfUint n) (float32OfUint 0)))) =
      if n = 0 then FloatVal.nan else FloatVal.posInf := by
  rw [float32OfUint_zero]
  by_cases h : n = 0
  · subst h
    rw [float32OfUint_zero]
    simp [fdiv, fmul, float64OfFloat32, Floor]
  · obtain ⟨r, hr, hpos⟩ := float32OfUint_pos n (Nat.pos_of_ne_zero h) h2
    rw [hr, if_neg h]
    simp [fdiv, fmul, float64OfFloat32, Floor, ne_of_gt hpos, hpos]

/-! # The claims -/

/-! ## C1 -/

/-- C1, as amended: `sendChargeMsg` sends the warning only if at least ten
seconds have elapsed since `lastMsg`, `chargeState` is not `Charging`, and
`energyLevel` is not above 24, that is `energyLevel <= 24` or `energyLevel` is
NaN. In particular it sends nothing when fewer than ten seconds have elapsed,
and nothing when `chargeState == Charging`. -/
theorem C1_warning_only_if (bat : battery) (c c2 : Clock) (reply : SendReply) :
    (sentNotifications (sendChargeMsg bat c c2 reply).2 ≠ [] →
      10 * Second ≤ Since c bat.lastMsg ∧ bat.chargeState ≠ Charging ∧
        (FloatVal.le bat.energyLevel (FloatVal.fin 24) = true ∨
          bat.energyLevel = FloatVal.nan)) ∧
    (Since c bat.lastMsg < 10 * Second →
      sentNotifications (sendChargeMsg bat c c2 reply).2 = []) ∧
    (bat.chargeState = Charging →
      sentNotifications (sendChargeMsg bat c c2 reply).2 = []) := by
  refine ⟨fun h => ?_, fun h => ?_, fun h => ?_⟩
  · rcases sendChargeMsg_cases bat c c2 reply with ⟨e, _⟩ | ⟨_, h1, h2, h3⟩
    · rw [e] at h; exact absurd rfl h
    · exact ⟨le_of_lt h1, h2, (FloatVal.gt_eq_false_iff _ _).mp (by exact_mod_cast h3)⟩
  · rw [sendChargeMsg_quiet bat c c2 reply (Or.inl (le_of_lt h))]; rfl
  · rw [sendChargeMsg_quiet bat c c2 reply (Or.inr (Or.inl h))]; rfl

/-- C1, the amended statement at a state that sends the warning: level 10,
discharging, no warning sent before. -/
theorem C1_warning_only_if_witness :
    sentNotifications (sendChargeMsg ⟨Discharging, FloatVal.fin 10, zeroTime⟩
      clockStart clockStart (Except.ok 1)).2 ≠ [] ∧
    10 * Second ≤ Since clockStart zeroTime ∧
    FloatVal.le (FloatVal.fin 10) (FloatVal.fin 24) = true :=
  have h : sentNotifications (sendChargeMsg ⟨Discharging, FloatVal.fin 10, zeroTime⟩
      clockStart clockStart (Except.ok 1)).2 ≠ [] := by decide
  ⟨h, ((C1_warning_only_if _ _ _ _).1 h).1, by decide⟩

/-- C1 as stated fails: `writeBatPercentage` stores NaN as `energyLevel` when
both energy files read 0, and in that state (not charging, no warning sent
before) `sendChargeMsg` sends the warning although `energyLevel <= 24` is
false. -/
theorem C1_counterexample :
    writeBatPercentage ⟨Discharging, FloatVal.fin 50, zeroTime⟩ (some "0\n") (some "0\n") =
      Except.ok ⟨Discharging, FloatVal.nan, zeroTime⟩ ∧
    sentNotifications (sendChargeMsg ⟨Discharging, FloatVal.nan, zeroTime⟩
      clockStart clockStart (Except.ok 1)).2 = [lowBatteryWarning] ∧
    FloatVal.le FloatVal.nan (FloatVal.fin 24) = false := by
  refine ⟨?_, by decide, by decide⟩
  rw [writeBatPercentage_eq _ "0\n" "0\n" 0 0 (by decide) (by decide),
    percent_div_zero 0 (by decide)]
  rfl

/-! ## C2 -/

/-- C2, as amended: whenever more than ten seconds have elapsed since
`lastMsg` (in particular when `lastMsg` is the zero time, no warning ever
sent), `chargeState` is not `Charging` and `energyLevel <= 24`,
`sendChargeMsg` sends the low-battery warning, once. -/
theorem C2_warning_if (bat : battery) (c c2 : Clock) (reply : SendReply)
    (h1 : 10 * Second < Since c bat.lastMsg ∨
      (bat.lastMsg = zeroTime ∧ 10 * Second < c.wall))
    (h2 : bat.chargeState ≠ Charging)
    (h3 : FloatVal.le bat.energyLevel (FloatVal.fin 24) = true) :
    sentNotifications (sendChargeMsg bat c c2 reply).2 = [lowBatteryWarning] := by
  rw [sendChargeMsg_fire bat c c2 reply (cooldown_passed bat c h1) h2 (gt_critical_of_le _ h3)]
  exact sentNotifications_sendEvents _ _

/-- C2, the amended statement with the last warning sent at `clockStart` and
the tick eleven seconds later: the warning fires. -/
theorem C2_warning_if_witness :
    Since (clockAfter (11 * Second)) (Now clockStart) = 11 * Second ∧
    sentNotifications (sendChargeMsg ⟨Discharging, FloatVal.fin 24, Now clockStart⟩
      (clockAfter (11 * Second)) (clockAfter (11 * Second)) (Except.ok 1)).2
      = [lowBatteryWarning] :=
  ⟨by decide, C2_warning_if _ _ _ _ (Or.inl (by decide)) (by decide) (by decide)⟩

/-- C2 as stated fails at a tick exactly ten seconds after the last warning:
the guard `time.Since(bat.lastMsg) <= 10*time.Second` returns, nothing is
sent, although the state is not `Charging` and `energyLevel <= 24`. -/
theorem C2_counterexample :
    Since (clockAfter (10 * Second)) (Now clockStart) = 10 * Second ∧
    Discharging ≠ Charging ∧
    FloatVal.le (FloatVal.fin 24) (FloatVal.fin 24) = true ∧
    sendChargeMsg ⟨Discharging, FloatVal.fin 24, Now clockStart⟩
      (clockAfter (10 * Second)) (clockAfter (10 * Second)) (Except.ok 1)
      = (⟨Discharging, FloatVal.fin 24, Now clockStart⟩, []) := by
  decide

/-! ## C3 -/

/-- C3, as amended: with `chargeState` not `Charging` and the cooldown gate
passed (more than ten seconds since `lastMsg`, in particular `lastMsg` at its
zero value), `sendChargeMsg` sends the warning if and only if `energyLevel` is
not above 24: `energyLevel <= 24`, or `energyLevel` is NaN. -/
theorem C3_threshold (bat : battery) (c c2 : Clock) (reply : SendReply)
    (h1 : 10 * Second < Since c bat.lastMsg ∨
      (bat.lastMsg = zeroTime ∧ 10 * Second < c.wall))
    (h2 : bat.chargeState ≠ Charging) :
    sentNotifications (sendChargeMsg bat c c2 reply).2 = [lowBatteryWarning] ↔
      (FloatVal.le bat.energyLevel (FloatVal.fin 24) = true ∨
        bat.energyLevel = FloatVal.nan) := by
  constructor
  · intro h
    rcases sendChargeMsg_cases bat c c2 reply with ⟨e, _⟩ | ⟨_, _, _, h3⟩
    · rw [e] at h; exact absurd h (by simp [sentNotifications])
    · exact (FloatVal.gt_eq_false_iff _ _).mp (by exact_mod_cast h3)
  · intro h
    have h3 : FloatVal.gt bat.energyLevel (FloatVal.fin CriticalEnergyLevel) = false := by
      have := (FloatVal.gt_eq_false_iff bat.energyLevel 24).mpr h
      exact_mod_cast this
    rw [sendChargeMsg_fire bat c c2 reply (cooldown_passed bat c h1) h2 h3]
    exact sentNotifications_sendEvents _ _

/-- C3, the amended statement at the three levels of the claim, no warning
ever sent, not charging: 24 and 0 send the warning, 25 does not. -/
theorem C3_threshold_witness :
    sentNotifications (sendChargeMsg ⟨NotCharging, FloatVal.fin 24, zeroTime⟩
      clockStart clockStart (Except.ok 1)).2 = [lowBatteryWarning] ∧
    sentNotifications (sendChargeMsg ⟨NotCharging, FloatVal.fin 0, zeroTime⟩
      clockStart clockStart (Except.ok 1)).2 = [lowBatteryWarning] ∧
    sentNotifications (sendChargeMsg ⟨NotCharging, FloatVal.fin 25, zeroTime⟩
      clockStart clockStart (Except.ok 1)).2 ≠ [lowBatteryWarning] :=
  ⟨(C3_threshold ⟨NotCharging, FloatVal.fin 24, zeroTime⟩ clockStart clockStart (Except.ok 1)
      (Or.inr ⟨rfl, by decide⟩) (by decide)).mpr (Or.inl (by decide)),
   (C3_threshold ⟨NotCharging, FloatVal.fin 0, zeroTime⟩ clockStart clockStart (Except.ok 1)
      (Or.inr ⟨rfl, by decide⟩) (by decide)).mpr (Or.inl (by decide)),
   fun h => absurd
    ((C3_threshold ⟨NotCharging, FloatVal.fin 25, zeroTime⟩ clockStart clockStart (Except.ok 1)
      (Or.inr ⟨rfl, by decide⟩) (by decide)).mp h) (by decide)⟩

/-- C3 as stated fails at the level NaN: not charging, no warning ever sent,
the warning is sent, and `NaN <= 24` is false. -/
theorem C3_counterexample :
    NotCharging ≠ Charging ∧
    10 * Second < Since clockStart zeroTime ∧
    sentNotifications (sendChargeMsg ⟨NotCharging, FloatVal.nan, zeroTime⟩
      clockStart clockStart (Except.ok 1)).2 = [lowBatteryWarning] ∧
    FloatVal.le FloatVal.nan (FloatVal.fin 24) = false := by
  decide

/-! ## C4 -/

/-- C4, as amended: `sendChargeMsg` never changes `chargeState` or
`energyLevel`; it changes `lastMsg` only when it sends the warning, which it
does only when ten seconds have elapsed, the state is not `Charging`, and
`energyLevel` is not above 24, that is `energyLevel <= 24` or `energyLevel`
is NaN; then `lastMsg` is the current time. When the cooldown has not
elapsed, or the state is `Charging`, or the level is above 24, `lastMsg`
(with the rest of the struct) is left unchanged. -/
theorem C4_frame (bat : battery) (c c2 : Clock) (reply : SendReply) :
    (sendChargeMsg bat c c2 reply).1.chargeState = bat.chargeState ∧
    (sendChargeMsg bat c c2 reply).1.energyLevel = bat.energyLevel ∧
    ((sendChargeMsg bat c c2 reply).1.lastMsg ≠ bat.lastMsg →
      sentNotifications (sendChargeMsg bat c c2 reply).2 = [lowBatteryWarning]) ∧
    (sentNotifications (sendChargeMsg bat c c2 reply).2 = [lowBatteryWarning] →
      (sendChargeMsg bat c c2 reply).1.lastMsg = Now c2 ∧
      10 * Second ≤ Since c bat.lastMsg ∧ bat.chargeState ≠ Charging ∧
      (FloatVal.le bat.energyLevel (FloatVal.fin 24) = true ∨
        bat.energyLevel = FloatVal.nan)) ∧
    (sentNotifications (sendChargeMsg bat c c2 reply).2 ≠ [lowBatteryWarning] →
      (sendChargeMsg bat c c2 reply).1 = bat) ∧
    ((Since c bat.lastMsg < 10 * Second ∨ bat.chargeState = Charging ∨
        FloatVal.gt bat.energyLevel (FloatVal.fin 24) = true) →
      (sendChargeMsg bat c c2 reply).1 = bat) := by
  rcases sendChargeMsg_cases bat c c2 reply with ⟨e, _⟩ | ⟨e, h1, h2, h3⟩
  · rw [e]
    refine ⟨rfl, rfl, fun h => absurd rfl h, fun h => ?_, fun _ => rfl, fun _ => rfl⟩
    exact absurd h (by simp [sentNotifications])
  · rw [e]
    have h3' : FloatVal.gt bat.energyLevel (FloatVal.fin 24) = false := by exact_mod_cast h3
    refine ⟨rfl, rfl, fun _ => sentNotifications_sendEvents _ _,
      fun _ => ⟨rfl, le_of_lt h1, h2, (FloatVal.gt_eq_false_iff _ _).mp h3'⟩,
      fun h => absurd (sentNotifications_sendEvents _ _) h, fun h => ?_⟩
    rcases h with h | h | h
    · exact absurd h (not_lt.mpr (le_of_lt h1))
    · exact absurd h h2
    · rw [h3'] at h; exact absurd h (by decide)

/-- C4, the amended statement at a state that sends: the new `lastMsg` is the
clock reading taken after the send, the other fields are those of the old
state. -/
theorem C4_frame_witness :
    sentNotifications (sendChargeMsg ⟨Discharging, FloatVal.fin 10, zeroTime⟩
      clockStart (clockAfter 1000) (Except.ok 1)).2 = [lowBatteryWarning] ∧
    (sendChargeMsg ⟨Discharging, FloatVal.fin 10, zeroTime⟩
      clockStart (clockAfter 1000) (Except.ok 1)).1
      = ⟨Discharging, FloatVal.fin 10, Now (clockAfter 1000)⟩ ∧
    (sendChargeMsg ⟨Discharging, FloatVal.fin 10, zeroTime⟩
      clockStart (clockAfter 1000) (Except.ok 1)).1.lastMsg = Now (clockAfter 1000) :=
  have h : sentNotifications (sendChargeMsg ⟨Discharging, FloatVal.fin 10, zeroTime⟩
      clockStart (clockAfter 1000) (Except.ok 1)).2 = [lowBatteryWarning] := by decide
  ⟨h, by decide, ((C4_frame _ _ _ _).2.2.2.1 h).1⟩

/-- C4 as stated fails at the level NaN: not charging and no warning sent
before, `sendChargeMsg` sends the warning and changes `lastMsg` from the
zero time to the current time, although the third condition,
`energyLevel <= 24`, does not hold. -/
theorem C4_counterexample :
    (sendChargeMsg ⟨NotCharging, FloatVal.nan, zeroTime⟩
      clockStart (clockAfter 1000) (Except.ok 1)).1.lastMsg = Now (clockAfter 1000) ∧
    Now (clockAfter 1000) ≠ zeroTime ∧
    sentNotifications (sendChargeMsg ⟨NotCharging, FloatVal.nan, zeroTime⟩
      clockStart (clockAfter 1000) (Except.ok 1)).2 = [lowBatteryWarning] ∧
    FloatVal.le FloatVal.nan (FloatVal.fin 24) = false := by
  decide

/-! ## C5 -/

/-- C5, as amended: for every raw status string, `writeChargingState` stores
`Charging` if the string without its leading and trailing newline characters
(and only those: `strings.Trim(status, "\n")`) is exactly "Charging", that
is if the string is "Charging" between two runs of newlines, and
`Discharging` otherwise; the other fields are kept. -/
theorem C5_classifier (bat : battery) (raw : String) (reply : SendReply) :
    (writeChargingState bat (some raw) reply).map Prod.fst =
      Except.ok { bat with chargeState := if Trim raw "\n" = "Charging" then Charging
                                           else Discharging } ∧
    (Trim raw "\n" = "Charging" ↔
      ∃ i j : ℕ, raw.data = List.replicate i '\n' ++ "Charging".data ++ List.replicate j '\n') := by
  refine ⟨?_, Trim_eq_Charging_iff raw⟩
  rw [writeChargingState_eq]; rfl

/-- C5 as stated fails: " Charging\n" and "Charging \n" are "Charging" once
whitespace and newlines are trimmed, and `writeChargingState` stores
`Discharging` for both (for "Charging\n" it stores `Charging`). -/
theorem C5_counterexample :
    trimWhitespaceSpec " Charging\n" = "Charging" ∧
    writeChargingState newBatStat (some " Charging\n") (Except.ok 1) =
      Except.ok ({ newBatStat with chargeState := Discharging }, []) ∧
    trimWhitespaceSpec "Charging \n" = "Charging" ∧
    writeChargingState newBatStat (some "Charging \n") (Except.ok 1) =
      Except.ok ({ newBatStat with chargeState := Discharging }, []) := by
  refine ⟨by decide, ?_, by decide, ?_⟩ <;>
    rw [writeChargingState_eq, if_neg (by decide), if_neg (by decide)]

/-! ## C6 -/

/-- C6: fed a sequence of status readings tick by tick from any state,
`writeChargingState` sends at every tick either one charging-started
notification or none, and it sends one at tick `i` exactly when reading `i`
is stored as `Charging` and the state stored before tick `i` is not
`Charging`. For the readings Discharging, Charging, Charging, Discharging,
Charging from the state of `newBatStat` the notifications are at the ticks 1
and 4. -/
theorem C6_charging_edge (bat : battery) (ticks : List (String × SendReply)) :
    (chargingRun bat ticks).length = ticks.length ∧
    (∀ i status reply, ticks[i]? = some (status, reply) →
      (chargingRun bat ticks)[i]? =
        some (if readsCharging status = true ∧ chargingBefore bat ticks i = false
          then 1 else 0)) ∧
    chargingRun newBatStat
      [("Discharging\n", Except.ok 1), ("Charging\n", Except.ok 1), ("Charging\n", Except.ok 2),
       ("Discharging\n", Except.ok 2), ("Charging\n", Except.ok 2)] = [0, 1, 0, 0, 1] := by
  refine ⟨?_, ?_, ?_⟩
  · induction ticks generalizing bat with
    | nil => rfl
    | cons t rest ih =>
      obtain ⟨status, reply⟩ := t
      rw [chargingRun_cons, List.length_cons, List.length_cons, ih]
  · induction ticks generalizing bat with
    | nil => intro i status reply h; simp at h
    | cons t rest ih =>
      obtain ⟨status0, reply0⟩ := t
      intro i status reply h
      rw [chargingRun_cons]
      cases i with
      | zero =>
        simp only [List.getElem?_cons_zero, Option.some.injEq, Prod.mk.injEq] at h
        obtain ⟨rfl, rfl⟩ := h
        simp [chargingBefore]
      | succ k =>
        simp only [List.getElem?_cons_succ] at h
        rw [List.getElem?_cons_succ, ih _ k status reply h]
        cases k with
        | zero =>
          by_cases h0 : readsCharging status0 = true <;> simp [chargingBefore, h0]
        | succ m => simp [chargingBefore]
  · simp [chargingRun_cons, readsCharging, newBatStat, chargingRun]
    decide

/-! ## C7 -/

/-- C7, as amended: for all unsigned 32-bit readings with `energy_full > 0`
and `energy_now <= energy_full`, the `energyLevel` that `writeBatPercentage`
stores is an integer in `[0, 100]` that differs from the exact
`floor(100 * energy_now / energy_full)` by at most 1: it lies between the
floors of the exact quotient minus and plus `10 ^ (-4)`. -/
theorem C7_percentage (bat : battery) (ef en : String) (energy_full energy_now : ℕ)
    (hf : ParseUint (Trim ef "\n") 32 = some energy_full)
    (hn : ParseUint (Trim en "\n") 32 = some energy_now)
    (h0 : 0 < energy_full) (hle : energy_now ≤ energy_full) :
    ∃ k : ℤ,
      writeBatPercentage bat (some ef) (some en) =
        Except.ok { bat with energyLevel := FloatVal.fin k } ∧
      0 ≤ k ∧ k ≤ 100 ∧
      |k - ((100 * energy_now / energy_full : ℕ) : ℤ)| ≤ 1 ∧
      ⌊100 * (energy_now : ℚ) / energy_full - 1 / 10000⌋ ≤ k ∧
      k ≤ ⌊100 * (energy_now : ℚ) / energy_full + 1 / 10000⌋ := by
  obtain ⟨P, hP, hP0, hPlo, hPhi⟩ :=
    percent_bounds energy_now energy_full h0 hle (ParseUint_lt _ _ hf)
  have hfq : (0 : ℚ) < energy_full := by exact_mod_cast h0
  have hleq : (energy_now : ℚ) ≤ energy_full := by exact_mod_cast hle
  have hx : 100 * (energy_now : ℚ) / energy_full ≤ 100 := by
    rw [div_le_iff₀ hfq]; linarith
  have hex : ⌊100 * (energy_now : ℚ) / energy_full⌋ =
      ((100 * energy_now / energy_full : ℕ) : ℤ) := by
    have := Rat.floor_natCast_div_natCast (100 * energy_now) energy_full
    push_cast at this ⊢
    exact this
  have hlo : ⌊100 * (energy_now : ℚ) / energy_full - 1 / 10000⌋ ≤ ⌊P⌋ := Int.floor_mono hPlo
  have hhi : ⌊P⌋ ≤ ⌊100 * (energy_now : ℚ) / energy_full + 1 / 10000⌋ := Int.floor_mono hPhi
  have hlo1 : ⌊100 * (energy_now : ℚ) / energy_full⌋ - 1 ≤
      ⌊100 * (energy_now : ℚ) / energy_full - 1 / 10000⌋ := by
    rw [← Int.floor_sub_one]; exact Int.floor_mono (by linarith)
  have hhi1 : ⌊100 * (energy_now : ℚ) / energy_full + 1 / 10000⌋ ≤
      ⌊100 * (energy_now : ℚ) / energy_full⌋ + 1 := by
    rw [← Int.floor_add_one]; exact Int.floor_mono (by linarith)
  refine ⟨⌊P⌋, ?_, Int.floor_nonneg.mpr hP0, ?_, ?_, hlo, hhi⟩
  · rw [writeBatPercentage_eq bat ef en energy_full energy_now hf hn, hP]
  · have : ⌊P⌋ < 101 := Int.floor_lt.mpr (by push_cast; linarith)
    omega
  · rw [← hex, abs_le]; constructor <;> omega

/-- C7, the amended statement at the readings of the claim's example:
`energy_full` 50000 and `energy_now` 5000, where the stored level is 10. -/
theorem C7_percentage_witness :
    (∃ k : ℤ,
      writeBatPercentage newBatStat (some "50000\n") (some "5000\n") =
        Except.ok { newBatStat with energyLevel := FloatVal.fin k } ∧
      0 ≤ k ∧ k ≤ 100 ∧
      |k - ((100 * 5000 / 50000 : ℕ) : ℤ)| ≤ 1 ∧
      ⌊100 * ((5000 : ℕ) : ℚ) / (50000 : ℕ) - 1 / 10000⌋ ≤ k ∧
      k ≤ ⌊100 * ((5000 : ℕ) : ℚ) / (50000 : ℕ) + 1 / 10000⌋) ∧
    writeBatPercentage newBatStat (some "50000\n") (some "5000\n") =
      Except.ok { newBatStat with energyLevel := FloatVal.fin 10 } :=
  ⟨C7_percentage newBatStat "50000\n" "5000\n" 50000 5000 (by decide) (by decide)
      (by decide) (by decide),
    by rw [writeBatPercentage_eq newBatStat "50000\n" "5000\n" 50000 5000 (by decide) (by decide),
      percent_5000_50000]⟩

/-- C7 as stated fails at `energy_now = 53`, `energy_full = 100`: the exact
floor of `100 * 53 / 100` is 53, the stored level is 52 (the `float32`
quotient is just below 0.53 and its product with 100 rounds to a number just
below 53). -/
theorem C7_counterexample :
    writeBatPercentage newBatStat (some "100\n") (some "53\n") =
      Except.ok { newBatStat with energyLevel := FloatVal.fin 52 } ∧
    ⌊(100 * 53 / 100 : ℚ)⌋ = 53 ∧ (53 : ℕ) ≤ 100 ∧ FloatVal.fin 52 ≠ FloatVal.fin 53 := by
  refine ⟨?_, by norm_num, by decide, by decide⟩
  rw [writeBatPercentage_eq newBatStat "100\n" "53\n" 100 53 (by decide) (by decide),
    percent_53_100]

/-! ## C8 -/

/-- C8, as amended: when the `energy_full` reading parses to 0,
`writeBatPercentage` signals no error; it stores NaN into `energyLevel` when
`energy_now` is 0 too, and positive infinity otherwise. -/
theorem C8_energy_full_zero (bat : battery) (ef en : String) (energy_now : ℕ)
    (hf : ParseUint (Trim ef "\n") 32 = some 0)
    (hn : ParseUint (Trim en "\n") 32 = some energy_now) :
    writeBatPercentage bat (some ef) (some en) =
      Except.ok { bat with
        energyLevel := if energy_now = 0 then FloatVal.nan else FloatVal.posInf } := by
  rw [writeBatPercentage_eq bat ef en 0 energy_now hf hn,
    percent_div_zero energy_now (ParseUint_lt _ _ hn)]

/-- C8, the amended statement at `energy_full` 0 and `energy_now` 5000: no
error, positive infinity is stored. -/
theorem C8_energy_full_zero_witness :
    writeBatPercentage newBatStat (some "0\n") (some "5000\n") =
      Except.ok { newBatStat with energyLevel := FloatVal.posInf } :=
  C8_energy_full_zero newBatStat "0\n" "5000\n" 5000 (by decide) (by decide)

/-- C8 as stated fails: with both readings 0, `writeBatPercentage` returns
without a panic and stores NaN into `energyLevel`. -/
theorem C8_counterexample :
    writeBatPercentage newBatStat (some "0\n") (some "0\n") =
      Except.ok { newBatStat with energyLevel := FloatVal.nan } := by
  rw [writeBatPercentage_eq newBatStat "0\n" "0\n" 0 0 (by decide) (by decide),
    percent_div_zero 0 (by decide)]
  rfl

/-! ## C9 -/

/-- C9, as amended: the charging-started request has application name
"Battery-Notify", replaces-id 0, summary "Battery Status", body "Charging", a
five-second expiry, no urgency and no hint; the low-battery warning has the
same application name and replaces-id, the summary "Battery leveling  warning"
(two blanks between the words, as the source writes it), body "Please charge
your laptop!", a five-second expiry, and critical urgency both as the urgency
field and as an urgency hint. -/
theorem C9_notification_fields (bat : battery) (c c2 : Clock) (reply : SendReply) :
    sentNotifications (sendChargingMsg bat reply) =
      [⟨"Battery-Notify", 0, "Battery Status", "Charging", 5 * Second, none, []⟩] ∧
    ∀ n ∈ sentNotifications (sendChargeMsg bat c c2 reply).2,
      n = ⟨"Battery-Notify", 0, "Battery leveling  warning", "Please charge your laptop!",
            5 * Second, some UrgencyCritical, [HintUrgency UrgencyCritical]⟩ := by
  constructor
  · cases reply <;> simp [sendChargingMsg, sentNotifications, mul_comm]
  · intro n hn
    rcases sendChargeMsg_cases bat c c2 reply with ⟨e, _⟩ | ⟨e, _, _, _⟩
    · rw [e] at hn; simp [sentNotifications] at hn
    · rw [e, sentNotifications_sendEvents] at hn
      rw [List.mem_singleton] at hn
      rw [hn]; rfl

/-- C9 as stated fails on the summary of the low-battery warning: the source
has two blanks between "leveling" and "warning", the claim one. -/
theorem C9_counterexample :
    (sentNotifications (sendChargeMsg ⟨Discharging, FloatVal.fin 10, zeroTime⟩
      clockStart clockStart (Except.ok 1)).2).map Notification.Summary
      = ["Battery leveling  warning"] ∧
    "Battery leveling  warning" ≠ "Battery leveling warning" := by
  decide

/-! ## C10 -/

/-- C10: whatever `SendNotification` replies in `sendChargingMsg` and in
`sendChargeMsg` (an error or not), a tick gives the same result up to the log:
it panics on the same inputs (those with a file that cannot be read or
parsed, no others), and otherwise ends with the same stored state
(`chargeState`, `energyLevel`, `lastMsg`) after the same calls of
`SendNotification`. A reply without error logs nothing, and an error reply
logs one line for the send that failed. -/
theorem C10_dispatch_failure (bat : battery) (i : TickInput) (r1 r2 : SendReply) :
    (tick bat { i with chargingReply := r1, warningReply := r2 }).map Prod.fst =
      (tick bat i).map Prod.fst ∧
    (tick bat { i with chargingReply := r1, warningReply := r2 }).map
        (fun r => sentNotifications r.2) =
      (tick bat i).map (fun r => sentNotifications r.2) ∧
    (∀ k, logLines (sendChargingMsg bat (Except.ok k)) = [] ∧
      logLines (sendChargeMsg bat i.clock i.clock2 (Except.ok k)).2 = []) ∧
    (∀ err, logLines (sendChargingMsg bat (Except.error err)) =
        ["error sending notification: " ++ err] ∧
      logLines (sendChargeMsg bat i.clock i.clock2 (Except.error err)).2 =
        (sentNotifications (sendChargeMsg bat i.clock i.clock2 (Except.error err)).2).map
          (fun _ => "error sending notification: " ++ err)) := by
  refine ⟨?_, ?_, fun k => ⟨rfl, ?_⟩, fun err => ⟨rfl, ?_⟩⟩
  rotate_left 2
  · rcases sendChargeMsg_cases bat i.clock i.clock2 (Except.ok k) with ⟨e, _⟩ | ⟨e, _, _, _⟩ <;>
      rw [e] <;> rfl
  · rcases sendChargeMsg_cases bat i.clock i.clock2 (Except.error err) with
      ⟨e, _⟩ | ⟨e, _, _, _⟩ <;> rw [e] <;> rfl
  all_goals
    unfold tick
    simp only
    cases hw : writeBatPercentage bat i.energyFull i.energyNow with
    | error e => rfl
    | ok bat1 =>
      cases hs : i.status with
      | none => rfl
      | some raw =>
        dsimp only
        rw [writeChargingState_eq, writeChargingState_eq]
        have h := sendChargeMsg_reply
          { bat1 with chargeState := if Trim raw "\n" = "Charging" then Charging else Discharging }
          i.clock i.clock2 r2 i.warningReply
        simp only [Except.map, sentNotifications_append, h.1, h.2,
          sentNotifications_sendChargingMsg]
        try (split <;> simp [sentNotifications_sendChargingMsg])

end BatNotify
